import Mathlib

/-!
Verification of the Roblox Experience Stats scraper (src/main.js) against its
specification.  The source is JavaScript; we embed the pure core of the
program shallowly:

* JavaScript values are the inductive `JSVal`; JS truthiness, the short-circuit
  operators, property access and object literals (with spread) are modelled as
  total Lean functions with the same semantics on the values the program uses.
  `null` and `undefined` are conflated into `JSVal.vnull` — the program never
  distinguishes them (both are falsy, and every place a missing value can flow
  ends in an `x || null` or `x || ""` default).
* Platform collaborators that are out of scope for the core (the WHATWG URL
  parser, the regular-expression engine's big embedded-JSON regex, `JSON.parse`,
  the network API client, DOM selector reads, the wall clock) enter as explicit
  parameters, exactly at the interface the source uses them.
* Fallible effects (the two sink writes) are modelled with `Except`.
-/

namespace Roblox

/-- JavaScript runtime values manipulated by the scraper.  Objects are
association lists of string keys (insertion order, unique keys as produced by
object literals via `setKey`). -/
inductive JSVal where
  | vnull : JSVal
  | vbool : Bool → JSVal
  | vnum  : Int → JSVal
  | vstr  : String → JSVal
  | vobj  : List (String × JSVal) → JSVal

/-- Fields of a JavaScript object. -/
abbrev Obj := List (String × JSVal)

/-- JavaScript truthiness on the modelled values: `null`/`undefined`, `false`,
`0` and `""` are falsy, every object is truthy. -/
def truthy : JSVal → Bool
  | .vnull => false
  | .vbool b => b
  | .vnum n => n != 0
  | .vstr s => s != ""
  | .vobj _ => true

/-- JavaScript `a || b` (value-returning short-circuit or). -/
def jsOr (a b : JSVal) : JSVal := if truthy a then a else b

/-- JavaScript `a && b` (value-returning short-circuit and). -/
def jsAnd (a b : JSVal) : JSVal := if truthy a then b else a

/-- Look a key up in an object's field list (first occurrence). -/
def getKey : Obj → String → Option JSVal
  | [], _ => none
  | (k, v) :: t, key => if k = key then some v else getKey t key

/-- JavaScript property access `v?.k` / `v.k`: a missing key, or access on a
non-object, yields `undefined` (modelled as `vnull`).  The source only ever
performs plain `.k` access behind a truthiness guard, so the throwing case of
`null.k` is unreachable and not modelled. -/
def getVal : JSVal → String → JSVal
  | .vobj fs, k => (getKey fs k).getD .vnull
  | _, _ => .vnull

/-- Assign a key in an object as a JS object literal / spread does: replace an
existing key in place, otherwise append. -/
def setKey : Obj → String → JSVal → Obj
  | [], k, v => [(k, v)]
  | (k0, v0) :: t, k, v => if k0 = k then (k0, v) :: t else (k0, v0) :: setKey t k v

/-- JavaScript spread `{ ...base, ...v }` restricted to the way the source uses
it: spreading an object merges its fields (later wins); spreading `null` or a
non-object contributes no string-named fields.  (Spreading a string in JS would
add numeric-index keys; no canonical field of the program reads such keys.) -/
def spreadInto (base : Obj) (v : JSVal) : Obj :=
  match v with
  | .vobj fs => fs.foldl (fun o kv => setKey o kv.1 kv.2) base
  | _ => base

/-- The twelve canonical output fields named by the specification. -/
def canonicalFields : List String :=
  ["experience_id", "place_id", "name", "creator", "visits", "favorites",
   "playing", "maxPlayers", "price", "genre", "url", "extracted_at"]

/-- `normalizeRecord` (main.js lines 112–130).  `apiData` and `pageData` are
arbitrary JS values (the call sites pass `null` or an object), `placeId` is the
`ids.placeId || null` value, `now` is the `new Date().toISOString()` wall-clock
reading, passed in explicitly to keep the function pure. -/
def normalizeRecord (apiData pageData : JSVal) (url : String) (placeId : JSVal)
    (now : String) : Obj :=
  [ ("experience_id",
      jsOr (jsOr (getVal apiData "universeId") (getVal pageData "experienceId")) .vnull),
    ("place_id",
      jsOr (jsOr (jsOr (jsOr placeId (getVal apiData "rootPlaceId"))
        (getVal apiData "placeId")) (getVal pageData "placeId")) .vnull),
    ("name", jsOr (jsOr (getVal apiData "name") (getVal pageData "name")) (.vstr "")),
    ("creator",
      jsOr (jsOr (jsAnd (jsAnd apiData (getVal apiData "creator"))
          (jsOr (getVal (getVal apiData "creator") "name")
                (getVal (getVal apiData "creator") "creatorType")))
        (getVal pageData "creator")) (.vstr "")),
    ("visits", jsOr (jsOr (getVal apiData "visits") (getVal pageData "visits")) .vnull),
    ("favorites",
      jsOr (jsOr (getVal apiData "favoritedCount") (getVal pageData "favorites")) .vnull),
    ("playing", jsOr (jsOr (getVal apiData "playing") (getVal pageData "playing")) .vnull),
    ("maxPlayers",
      jsOr (jsOr (getVal apiData "maxPlayers") (getVal pageData "maxPlayers")) .vnull),
    ("price", jsOr (jsOr (getVal apiData "price") (getVal pageData "price")) .vnull),
    ("genre", jsOr (jsOr (getVal apiData "genre") (getVal pageData "genre")) (.vstr "")),
    ("url", .vstr url),
    ("raw_api", jsOr apiData .vnull),
    ("raw_page", jsOr pageData .vnull),
    ("extracted_at", .vstr now) ]

/-- Does `pat` occur as an initial segment of `s`? -/
def listStartsWith : List Char → List Char → Bool
  | [], _ => true
  | _ :: _, [] => false
  | p :: ps, c :: cs => p == c && listStartsWith ps cs

/-- Does `pat` occur as a contiguous substring of `s` (scanning left to right)? -/
def listContainsSub (pat : List Char) : List Char → Bool
  | [] => listStartsWith pat []
  | c :: t => listStartsWith pat (c :: t) || listContainsSub pat t

/-- The result of the platform's WHATWG URL parser on a well-formed URL: the
components the source reads (`u.pathname`, `u.searchParams`).  `new URL`
throwing on a malformed URL is modelled by the caller holding `none`. -/
structure ParsedURL where
  pathname : String
  searchParams : List (String × String)

/-- The literal of the regex in main.js line 35. -/
def gamesPat : List Char := "/games/".data

/-- The literal of the regex in main.js line 40. -/
def placesPat : List Char := "/places/".data

/-- One anchoring position of the regex `pat(\d+)`: the pattern must occur
here, immediately followed by at least one digit; the capture is the maximal
digit run (greedy `\d+`). -/
def matchDigitsAt (pat s : List Char) : Option (List Char) :=
  if listStartsWith pat s then
    let ds := (s.drop pat.length).takeWhile Char.isDigit
    if ds.isEmpty then none else some ds
  else none

/-- `String.prototype.match` with the regex `pat(\d+)`: scan positions left to
right, return the capture of the first position where the regex matches. -/
def scanFor (pat : List Char) : List Char → Option (List Char)
  | [] => none
  | c :: t =>
    match matchDigitsAt pat (c :: t) with
    | some ds => some ds
    | none => scanFor pat t

/-- `searchParams.get(key)`: the first value carried for `key`, or null. -/
def spGet : List (String × String) → String → Option String
  | [], _ => none
  | (k, v) :: t, key => if k = key then some v else spGet t key

/-- The regex `^\d+$` as a test: nonempty and all digits. -/
def isDigitString (s : String) : Bool := s != "" && s.data.all Char.isDigit

/-- The `/places/<digits>` branch of `extractIdsFromUrl` (main.js lines 40–41,
reached when neither earlier pattern returned). -/
def placesLookup (pu : ParsedURL) : Option String :=
  match scanFor placesPat pu.pathname.data with
  | some ds => some (String.mk ds)
  | none => none

/-- `extractIdsFromUrl` (main.js lines 31–46).  The input is the outcome of
`new URL(url)`: `none` when the constructor throws (the `catch` branch, which
falls through to `return {}`), `some` with the parsed components otherwise.
The returned `Option String` is the `placeId` property of the result record:
`none` stands for the empty record `{}`. -/
def extractIdsFromUrl (u : Option ParsedURL) : Option String :=
  match u with
  | none => none
  | some pu =>
    match scanFor gamesPat pu.pathname.data with
    | some ds => some (String.mk ds)
    | none =>
      match spGet pu.searchParams "id" with
      | some s =>
        if s != "" && isDigitString s then some s
        else placesLookup pu
      | none => placesLookup pu

/-- `s.replace(/[^0-9]/g, '')`. -/
def digitsOnly (s : String) : String := String.mk (s.data.filter Char.isDigit)

/-- `m[2].replace(/;$/, '')`: strip a single trailing semicolon. -/
def stripSemi (s : String) : String := if s.endsWith ";" then s.dropRight 1 else s

/-- The body of the per-script loop of `parseEmbeddedJson` (main.js lines
84–106) for one non-null, non-empty script text `s`.  `rmatch` is the platform
regex engine applied to the big embedded-JSON regex of line 85, returning the
second capture group on a match; `jparse` is `JSON.parse`, with a thrown
`SyntaxError` modelled as `none`.  On a regex match the parse is attempted,
retried once with a trailing semicolon stripped, and if both fail control
falls through to the ld+json check of lines 101–106. -/
def tryScriptBlock (rmatch : String → Option String) (jparse : String → Option JSVal)
    (s : String) : Option JSVal :=
  let viaRegex : Option JSVal :=
    match rmatch s with
    | some cap =>
      if cap = "" then none
      else
        match jparse cap with
        | some j => some j
        | none => jparse (stripSemi cap)
    | none => none
  match viaRegex with
  | some j => some j
  | none =>
    if s.trim.startsWith "\x7b" && listContainsSub "\"@type\"".data s.data then jparse s
    else none

/-- One iteration of the script loop including the `if (!s) continue` guard
(line 83): a null or empty script contributes nothing. -/
def scriptAttempt (rmatch : String → Option String) (jparse : String → Option JSVal) :
    Option String → Option JSVal
  | none => none
  | some str => if str = "" then none else tryScriptBlock rmatch jparse str

/-- `parseEmbeddedJson` (main.js lines 80–109): iterate the inline scripts in
document order, return the first successfully parsed object, else null. -/
def parseEmbeddedJson (rmatch : String → Option String) (jparse : String → Option JSVal) :
    List (Option String) → Option JSVal
  | [] => none
  | s :: rest =>
    match scriptAttempt rmatch jparse s with
    | some j => some j
    | none => parseEmbeddedJson rmatch jparse rest

/-- The page content both handlers can observe, one field per selector read
the source performs.  A missing element yields the empty string (the jQuery
`.text()` of an empty selection / the `.catch(() => '')` fallbacks);
`ogTitle` is `attr('content')`, which is `undefined` when absent. -/
structure PageContent where
  scripts : List (Option String)
  h1Text : String
  ogTitle : Option String
  title : String
  statText : String
  playingText : String

/-- JavaScript `a || b` on strings (used where the source chains string
expressions ending in `|| ''`). -/
def strOr (a b : String) : String := if a = "" then b else a

/-- JavaScript's notion of trimmable whitespace, restricted to the common
ASCII cases. -/
def isJsSpace (c : Char) : Bool := c = ' ' || c = '\t' || c = '\n' || c = '\r'

/-- `String.prototype.trim()`: strip whitespace from both ends. -/
def jsTrim (s : String) : String :=
  String.mk (((s.data.dropWhile isJsSpace).reverse.dropWhile isJsSpace).reverse)

/-- `ids.placeId || null` (main.js lines 152 and 214). -/
def placeIdOrNull : Option String → JSVal
  | some s => if s = "" then .vnull else .vstr s
  | none => .vnull

/-- The `pageData` object literal the cheerio handler passes to the
normalizer (main.js line 176): note the spread of `pageJson` comes last, so
its fields override the explicit `name`/`visits` entries. -/
def cheerioPageData (name : String) (visits : JSVal) (apiData pageJson : JSVal) : JSVal :=
  .vobj (spreadInto
    [("name", jsOr (jsOr (.vstr name) (getVal pageJson "name")) (.vstr "")),
     ("visits", if truthy apiData then getVal apiData "visits" else visits)]
    pageJson)

/-- The API-client invocation both handlers perform identically (main.js
lines 164–167 and 228–231): `if (useApi && placeId) apiData = await
fetchRobloxGameApiByPlaceId(placeId)`, with `apiData` initialized to null. -/
def apiSel (apiByPlace : String → JSVal) (useApi : Bool) (pid : Option String) : JSVal :=
  match pid with
  | some s => if useApi && s != "" then apiByPlace s else .vnull
  | none => .vnull

/-- The record the cheerio handler builds for one URL (main.js lines 151–179).
`apiByPlace`/`apiByUniverse` are the best-effort API client operations (network
collaborators; `vnull` models their null return), `parsed` the URL parser's
outcome on the request URL, `now` the wall clock. -/
def cheerioRecord (rmatch : String → Option String) (jparse : String → Option JSVal)
    (apiByPlace : String → JSVal) (apiByUniverse : JSVal → JSVal)
    (useApi checkPlaceDetails : Bool)
    (parsed : Option ParsedURL) (url : String) (page : PageContent) (now : String) : Obj :=
  let pid : Option String := extractIdsFromUrl parsed
  let placeId : JSVal := placeIdOrNull pid
  let pageJson : JSVal := (parseEmbeddedJson rmatch jparse page.scripts).getD .vnull
  let name : String := strOr (jsTrim page.h1Text) (strOr (page.ogTitle.getD "") "")
  let visits : JSVal := if page.statText = "" then .vnull else .vstr (digitsOnly page.statText)
  let apiData1 : JSVal := apiSel apiByPlace useApi pid
  let apiData : JSVal :=
    if !truthy apiData1 && useApi && truthy pageJson && truthy (getVal pageJson "universeId")
        && checkPlaceDetails then
      apiByUniverse (getVal pageJson "universeId")
    else apiData1
  let pageData : JSVal := cheerioPageData name visits apiData pageJson
  normalizeRecord apiData pageData url placeId now

/-- The record the playwright handler builds for one URL (main.js lines
213–234).  Note: no embedded-JSON extraction and no universe-id API fallback
happen in this handler. -/
def playwrightRecord (apiByPlace : String → JSVal) (useApi : Bool)
    (parsed : Option ParsedURL) (url : String) (page : PageContent) (now : String) : Obj :=
  let pid : Option String := extractIdsFromUrl parsed
  let placeId : JSVal := placeIdOrNull pid
  let name : String := strOr page.title (strOr page.h1Text "")
  let playing : JSVal :=
    if page.playingText = "" then .vnull else .vstr (digitsOnly page.playingText)
  let apiData : JSVal := apiSel apiByPlace useApi pid
  let pageData : JSVal := .vobj [("name", .vstr name), ("playing", playing)]
  normalizeRecord apiData pageData url placeId now

/-- The sink phase of either handler (main.js lines 181–189 and 235–242):
`await dataset.pushData(record)` runs bare, then the KV write runs inside
`try/catch` with a `log.warning` in the catch.  `pushOutcome`/`kvOutcome` are
the outcomes of the two awaited external writes; the result is the handler's
outcome, carrying the warning message when one was logged. -/
def sinkPhase (pushOutcome kvOutcome : Except String Unit) : Except String (Option String) :=
  match pushOutcome with
  | .error e => .error e
  | .ok _ =>
    match kvOutcome with
    | .error e => .ok (some ("Failed to save raw JSON to KV: " ++ e))
    | .ok _ => .ok none

/-- Is the first character (if any) a digit?  Used to state that a digit run
in a path is maximal. -/
def headNotDigit : List Char → Bool
  | [] => true
  | c :: _ => !c.isDigit

/-- Does a JS value carry an own property named `k`? -/
def hasKey (v : JSVal) (k : String) : Bool :=
  match v with
  | .vobj fs => (getKey fs k).isSome
  | _ => false

/-- A JSON object literal, as a page would embed it (braces and all). -/
def cexJson : String := "\x7b\"placeId\":\"777\",\"pad\":\"aaaaaaaaaaaaaaaaaaaaaa\"\x7d"

/-- An inline script assigning that literal to a recognized global. -/
def cexScript : String := "window.__INITIAL_STATE__ = " ++ cexJson

/-- The platform regex engine's behaviour on the strings of this development:
the embedded-JSON regex of main.js line 85 matches `cexScript` (the token
`window.__INITIAL_STATE__`, an equals sign, then a brace-delimited literal of
more than 20 characters) with second capture group `cexJson`, and matches no
other string fed to it here. -/
def cexRmatch : String → Option String :=
  fun s => if s = cexScript then some cexJson else none

/-- `JSON.parse` on the strings of this development: `cexJson` parses to the
corresponding object, nothing else fed to it here parses. -/
def cexJparse : String → Option JSVal :=
  fun s =>
    if s = cexJson then
      some (.vobj [("placeId", .vstr "777"), ("pad", .vstr "aaaaaaaaaaaaaaaaaaaaaa")])
    else none

/-- A page whose only content is one embedded-JSON script; every DOM selector
read comes back empty. -/
def cexPage : PageContent :=
  { scripts := [some cexScript], h1Text := "", ogTitle := none, title := "",
    statText := "", playingText := "" }

/-! Helper lemmas about the JS-value operations. -/

theorem truthy_vnull : truthy JSVal.vnull = false := rfl

theorem getVal_vnull (k : String) : getVal JSVal.vnull k = JSVal.vnull := rfl

theorem jsOr_pos {a : JSVal} (b : JSVal) (h : truthy a = true) : jsOr a b = a := by
  simp [jsOr, h]

theorem jsOr_neg {a : JSVal} (b : JSVal) (h : truthy a = false) : jsOr a b = b := by
  simp [jsOr, h]

theorem truthy_ne_vnum_zero {v : JSVal} (h : truthy v = true) : v ≠ JSVal.vnum 0 := by
  intro hv
  subst hv
  simp [truthy] at h

/-- A two-source field merge ending in a null default is never the number 0:
a falsy source value (and 0 is falsy) is passed over, a truthy one is not 0. -/
theorem jsOr2_ne_zero (a b : JSVal) : jsOr (jsOr a b) JSVal.vnull ≠ JSVal.vnum 0 := by
  cases h : truthy (jsOr a b) with
  | true => rw [jsOr_pos _ h]; exact truthy_ne_vnum_zero h
  | false => rw [jsOr_neg _ h]; intro hh; exact JSVal.noConfusion hh

theorem jsOr_str_chain (s : String) :
    jsOr (jsOr (JSVal.vstr s) JSVal.vnull) (JSVal.vstr "") = JSVal.vstr s := by
  by_cases h : s = "" <;> simp [jsOr, truthy, h]

theorem getKey_setKey (o : Obj) (k k' : String) (v : JSVal) :
    getKey (setKey o k v) k' = if k = k' then some v else getKey o k' := by
  induction o with
  | nil => simp [setKey, getKey]
  | cons p t ih =>
    obtain ⟨k0, v0⟩ := p
    by_cases h1 : k0 = k
    · subst h1
      by_cases h2 : k0 = k' <;> simp [setKey, getKey, h2]
    · by_cases h2 : k0 = k'
      · subst h2
        have hne : ¬k = k0 := fun h => h1 h.symm
        simp [setKey, getKey, h1, hne]
      · simp [setKey, getKey, h1, h2, ih]

theorem getKey_none_forall {fs : Obj} {key : String} (h : getKey fs key = none) :
    ∀ p ∈ fs, p.1 ≠ key := by
  induction fs with
  | nil => simp
  | cons p t ih =>
    obtain ⟨k0, v0⟩ := p
    intro q hq
    simp only [getKey] at h
    by_cases hk : k0 = key
    · rw [if_pos hk] at h; exact absurd h (by simp)
    · rw [if_neg hk] at h
      rcases List.mem_cons.mp hq with h' | h'
      · subst h'; exact hk
      · exact ih h q h'

theorem getKey_foldl_setKey (fs : Obj) (key : String) :
    ∀ base : Obj, (∀ p ∈ fs, p.1 ≠ key) →
      getKey (fs.foldl (fun o kv => setKey o kv.1 kv.2) base) key = getKey base key := by
  induction fs with
  | nil => intro base _; rfl
  | cons p t ih =>
    intro base h
    simp only [List.foldl_cons]
    rw [ih _ (fun q hq => h q (List.mem_cons_of_mem _ hq))]
    rw [getKey_setKey, if_neg (h p (List.mem_cons_self _ _))]

/-! Helper lemmas about the pattern scanner of the identifier resolver. -/

theorem listStartsWith_append (l t : List Char) : listStartsWith l (l ++ t) = true := by
  induction l with
  | nil => rfl
  | cons c cs ih => simp [listStartsWith, ih]

theorem takeWhile_digits (ds rest : List Char) (hds : ∀ c ∈ ds, c.isDigit = true)
    (hrest : headNotDigit rest = true) :
    (ds ++ rest).takeWhile Char.isDigit = ds := by
  induction ds with
  | nil =>
    cases rest with
    | nil => rfl
    | cons c t =>
      simp only [headNotDigit, Bool.not_eq_eq_eq_not, Bool.not_true] at hrest
      simp [List.takeWhile_cons_of_neg, hrest]
  | cons d ds ih =>
    have hd : d.isDigit = true := hds d (List.mem_cons_self _ _)
    simp only [List.cons_append, List.takeWhile_cons_of_pos hd]
    rw [ih (fun c hc => hds c (List.mem_cons_of_mem _ hc))]

theorem matchDigitsAt_prefix (pat ds rest : List Char) (hne : ds ≠ [])
    (hds : ∀ c ∈ ds, c.isDigit = true) (hrest : headNotDigit rest = true) :
    matchDigitsAt pat (pat ++ (ds ++ rest)) = some ds := by
  simp only [matchDigitsAt, listStartsWith_append, if_true, List.drop_left,
    takeWhile_digits ds rest hds hrest]
  simp [List.isEmpty_eq_false.mpr hne]

theorem scanFor_prefix (pat ds rest : List Char) (hpat : pat ≠ []) (hne : ds ≠ [])
    (hds : ∀ c ∈ ds, c.isDigit = true) (hrest : headNotDigit rest = true) :
    scanFor pat (pat ++ (ds ++ rest)) = some ds := by
  have hm := matchDigitsAt_prefix pat ds rest hne hds hrest
  cases pat with
  | nil => exact absurd rfl hpat
  | cons c t =>
    rw [List.cons_append]
    simp only [scanFor]
    rw [← List.cons_append, hm]

theorem matchDigitsAt_sound {pat l ds : List Char} (h : matchDigitsAt pat l = some ds) :
    ds ≠ [] ∧ ∀ c ∈ ds, c.isDigit = true := by
  simp only [matchDigitsAt] at h
  by_cases h1 : listStartsWith pat l = true
  · rw [if_pos h1] at h
    by_cases h2 : ((l.drop pat.length).takeWhile Char.isDigit).isEmpty = true
    · rw [if_pos h2] at h; exact absurd h (by simp)
    · rw [if_neg h2] at h
      have hds : (l.drop pat.length).takeWhile Char.isDigit = ds := by
        injection h
      subst hds
      refine ⟨by simpa [List.isEmpty_iff] using h2, ?_⟩
      intro c hc
      exact List.mem_takeWhile_imp hc
  · rw [if_neg h1] at h; exact absurd h (by simp)

theorem scanFor_sound {pat : List Char} :
    ∀ {l ds : List Char}, scanFor pat l = some ds →
      ds ≠ [] ∧ ∀ c ∈ ds, c.isDigit = true := by
  intro l
  induction l with
  | nil => intro ds h; exact absurd h (by simp [scanFor])
  | cons c t ih =>
    intro ds h
    simp only [scanFor] at h
    cases hm : matchDigitsAt pat (c :: t) with
    | some ds' => rw [hm] at h; injection h with h2; subst h2; exact matchDigitsAt_sound hm
    | none => rw [hm] at h; exact ih h

theorem stringMk_digits {ds : List Char} (hne : ds ≠ [])
    (hds : ∀ c ∈ ds, c.isDigit = true) :
    String.mk ds ≠ "" ∧ (String.mk ds).data.all Char.isDigit = true := by
  constructor
  · intro h
    apply hne
    have := congrArg String.data h
    simpa using this
  · simpa [List.all_eq_true] using hds

theorem placesLookup_sound {pu : ParsedURL} {s : String}
    (h : placesLookup pu = some s) : s ≠ "" ∧ s.data.all Char.isDigit = true := by
  simp only [placesLookup] at h
  cases hscan : scanFor placesPat pu.pathname.data with
  | some ds =>
    rw [hscan] at h
    injection h with h2
    subst h2
    obtain ⟨hne, hds⟩ := scanFor_sound hscan
    exact stringMk_digits hne hds
  | none => rw [hscan] at h; exact absurd h (by simp)

/-- C1: `normalizeRecord` is total: for every combination of `apiData` and
`pageData` (in particular null or object — we prove it for all JS values), it
returns a record containing all twelve canonical fields, and `url` and
`extracted_at` are always populated from the call inputs (a string value,
never null). -/
theorem normalizeRecord_total (apiData pageData placeId : JSVal) (url now : String) :
    (∀ k ∈ canonicalFields,
      (getKey (normalizeRecord apiData pageData url placeId now) k).isSome = true) ∧
    getKey (normalizeRecord apiData pageData url placeId now) "url" = some (JSVal.vstr url) ∧
    getKey (normalizeRecord apiData pageData url placeId now) "extracted_at" =
      some (JSVal.vstr now) := by
  refine ⟨?_, rfl, rfl⟩
  intro k hk
  fin_cases hk <;> rfl

/-- Witness for C1 at a concrete input: both inputs null, the `name` field is
present and `url` is populated. -/
theorem normalizeRecord_total_witness :
    "name" ∈ canonicalFields ∧
    (getKey (normalizeRecord JSVal.vnull JSVal.vnull "https://w" JSVal.vnull "2026-10-11")
      "name").isSome = true ∧
    getKey (normalizeRecord JSVal.vnull JSVal.vnull "https://w" JSVal.vnull "2026-10-11")
      "url" = some (JSVal.vstr "https://w") :=
  ⟨by decide,
   (normalizeRecord_total JSVal.vnull JSVal.vnull JSVal.vnull "https://w" "2026-10-11").1
     "name" (by decide),
   (normalizeRecord_total JSVal.vnull JSVal.vnull JSVal.vnull "https://w" "2026-10-11").2.1⟩

/-- C2: when both `apiData.visits` and `pageData.visits` are present and
non-empty (truthy), the output `visits` is `apiData.visits`: the API source
wins the fixed precedence order. -/
theorem normalizeRecord_visits_api_precedence (apiData pageData placeId : JSVal)
    (url now : String)
    (ha : truthy (getVal apiData "visits") = true)
    (hp : truthy (getVal pageData "visits") = true) :
    getKey (normalizeRecord apiData pageData url placeId now) "visits"
      = some (getVal apiData "visits") := by
  have h : getKey (normalizeRecord apiData pageData url placeId now) "visits"
      = some (jsOr (jsOr (getVal apiData "visits") (getVal pageData "visits")) JSVal.vnull) := rfl
  rw [h, jsOr_pos _ ha, jsOr_pos _ ha]

/-- Witness for C2: both sources carry a nonzero visits count, the API's 7
wins over the page's 5. -/
theorem normalizeRecord_visits_api_precedence_witness :
    getKey (normalizeRecord (JSVal.vobj [("visits", JSVal.vnum 7)])
      (JSVal.vobj [("visits", JSVal.vnum 5)]) "u" JSVal.vnull "t") "visits"
      = some (getVal (JSVal.vobj [("visits", JSVal.vnum 7)]) "visits") :=
  normalizeRecord_visits_api_precedence (JSVal.vobj [("visits", JSVal.vnum 7)])
    (JSVal.vobj [("visits", JSVal.vnum 5)]) JSVal.vnull "u" "t" (by decide) (by decide)

/-- C3: `place_id` is resolved by the exact precedence: the explicit `placeId`
parameter first, then `apiData.rootPlaceId`, then `apiData.placeId`, then
`pageData.placeId`, and null when all are empty.  In particular a truthy
`placeId` parameter wins no matter what the API carries. -/
theorem normalizeRecord_place_id_precedence (apiData pageData placeId : JSVal)
    (url now : String) :
    (truthy placeId = true →
      getKey (normalizeRecord apiData pageData url placeId now) "place_id" = some placeId) ∧
    (truthy placeId = false → truthy (getVal apiData "rootPlaceId") = true →
      getKey (normalizeRecord apiData pageData url placeId now) "place_id"
        = some (getVal apiData "rootPlaceId")) ∧
    (truthy placeId = false → truthy (getVal apiData "rootPlaceId") = false →
      truthy (getVal apiData "placeId") = true →
      getKey (normalizeRecord apiData pageData url placeId now) "place_id"
        = some (getVal apiData "placeId")) ∧
    (truthy placeId = false → truthy (getVal apiData "rootPlaceId") = false →
      truthy (getVal apiData "placeId") = false → truthy (getVal pageData "placeId") = true →
      getKey (normalizeRecord apiData pageData url placeId now) "place_id"
        = some (getVal pageData "placeId")) ∧
    (truthy placeId = false → truthy (getVal apiData "rootPlaceId") = false →
      truthy (getVal apiData "placeId") = false → truthy (getVal pageData "placeId") = false →
      getKey (normalizeRecord apiData pageData url placeId now) "place_id"
        = some JSVal.vnull) := by
  have h : getKey (normalizeRecord apiData pageData url placeId now) "place_id"
      = some (jsOr (jsOr (jsOr (jsOr placeId (getVal apiData "rootPlaceId"))
          (getVal apiData "placeId")) (getVal pageData "placeId")) JSVal.vnull) := rfl
  refine ⟨?_, ?_, ?_, ?_, ?_⟩
  · intro h1
    rw [h, jsOr_pos _ h1, jsOr_pos _ h1, jsOr_pos _ h1, jsOr_pos _ h1]
  · intro h1 h2
    rw [h, jsOr_neg _ h1, jsOr_pos _ h2, jsOr_pos _ h2, jsOr_pos _ h2]
  · intro h1 h2 h3
    rw [h, jsOr_neg _ h1, jsOr_neg _ h2, jsOr_pos _ h3, jsOr_pos _ h3]
  · intro h1 h2 h3 h4
    rw [h, jsOr_neg _ h1, jsOr_neg _ h2, jsOr_neg _ h3, jsOr_pos _ h4]
  · intro h1 h2 h3 h4
    rw [h, jsOr_neg _ h1, jsOr_neg _ h2, jsOr_neg _ h3, jsOr_neg _ h4]

/-- Witness for C3: a caller-supplied `"1818"` wins over an API
`rootPlaceId` of 999 that is present and differs. -/
theorem normalizeRecord_place_id_precedence_witness :
    getKey (normalizeRecord (JSVal.vobj [("rootPlaceId", JSVal.vnum 999)]) JSVal.vnull
      "u" (JSVal.vstr "1818") "t") "place_id" = some (JSVal.vstr "1818") :=
  (normalizeRecord_place_id_precedence (JSVal.vobj [("rootPlaceId", JSVal.vnum 999)])
    JSVal.vnull (JSVal.vstr "1818") "u" "t").1 (by decide)

/-- C9: the merge never outputs the number 0 for the numeric fields `visits`,
`favorites`, `playing`, `maxPlayers`, `price`: a source value 0 is falsy, so
the merge treats it as absent and falls through to the next source or to
null.  The last two conjuncts exhibit the fall-through for `visits`. -/
theorem normalizeRecord_zero_erased (apiData pageData placeId : JSVal) (url now : String) :
    (∀ k ∈ (["visits", "favorites", "playing", "maxPlayers", "price"] : List String),
      getKey (normalizeRecord apiData pageData url placeId now) k ≠ some (JSVal.vnum 0)) ∧
    (getVal apiData "visits" = JSVal.vnum 0 → truthy (getVal pageData "visits") = true →
      getKey (normalizeRecord apiData pageData url placeId now) "visits"
        = some (getVal pageData "visits")) ∧
    (getVal apiData "visits" = JSVal.vnum 0 → getVal pageData "visits" = JSVal.vnum 0 →
      getKey (normalizeRecord apiData pageData url placeId now) "visits"
        = some JSVal.vnull) := by
  refine ⟨?_, ?_, ?_⟩
  · intro k hk
    fin_cases hk
    · exact fun h => jsOr2_ne_zero _ _ (Option.some.inj h)
    · exact fun h => jsOr2_ne_zero _ _ (Option.some.inj h)
    · exact fun h => jsOr2_ne_zero _ _ (Option.some.inj h)
    · exact fun h => jsOr2_ne_zero _ _ (Option.some.inj h)
    · exact fun h => jsOr2_ne_zero _ _ (Option.some.inj h)
  · intro h0 hp
    have h : getKey (normalizeRecord apiData pageData url placeId now) "visits"
        = some (jsOr (jsOr (getVal apiData "visits") (getVal pageData "visits"))
            JSVal.vnull) := rfl
    rw [h, h0]
    have e1 : jsOr (JSVal.vnum 0) (getVal pageData "visits") = getVal pageData "visits" :=
      jsOr_neg _ rfl
    rw [e1, jsOr_pos _ hp]
  · intro h0 hp
    have h : getKey (normalizeRecord apiData pageData url placeId now) "visits"
        = some (jsOr (jsOr (getVal apiData "visits") (getVal pageData "visits"))
            JSVal.vnull) := rfl
    rw [h, h0, hp]
    rfl

/-- Witness for C9: an API price of 0 with no page price merges to null, not
0; an API visits of 0 with a page visits of 5 merges to the page's 5. -/
theorem normalizeRecord_zero_erased_witness :
    "price" ∈ (["visits", "favorites", "playing", "maxPlayers", "price"] : List String) ∧
    getKey (normalizeRecord (JSVal.vobj [("price", JSVal.vnum 0), ("visits", JSVal.vnum 0)])
        (JSVal.vobj [("visits", JSVal.vnum 5)]) "u" JSVal.vnull "t") "price"
      ≠ some (JSVal.vnum 0) ∧
    getKey (normalizeRecord (JSVal.vobj [("price", JSVal.vnum 0), ("visits", JSVal.vnum 0)])
        (JSVal.vobj [("visits", JSVal.vnum 5)]) "u" JSVal.vnull "t") "visits"
      = some (getVal (JSVal.vobj [("visits", JSVal.vnum 5)]) "visits") :=
  ⟨by decide,
   (normalizeRecord_zero_erased (JSVal.vobj [("price", JSVal.vnum 0), ("visits", JSVal.vnum 0)])
     (JSVal.vobj [("visits", JSVal.vnum 5)]) JSVal.vnull "u" "t").1 "price" (by decide),
   (normalizeRecord_zero_erased (JSVal.vobj [("price", JSVal.vnum 0), ("visits", JSVal.vnum 0)])
     (JSVal.vobj [("visits", JSVal.vnum 5)]) JSVal.vnull "u" "t").2.1 rfl (by decide)⟩

/-- C4: the identifier resolver honors its three patterns and their
precedence.  (a) A path of the form `/games/<digits>...` (the digit run
maximal) yields that digit string, whatever the query carries.  (b) When the
`/games/` pattern does not match, an all-digits `id` query parameter yields
that digit string.  (c) When neither applies, a path of the form
`/places/<digits>...` yields that digit string. -/
theorem extractIdsFromUrl_patterns :
    (∀ (pathname : String) (params : List (String × String)) (ds rest : List Char),
        pathname.data = gamesPat ++ (ds ++ rest) → ds ≠ [] →
        (∀ c ∈ ds, c.isDigit = true) → headNotDigit rest = true →
        extractIdsFromUrl (some ⟨pathname, params⟩) = some (String.mk ds)) ∧
    (∀ (pu : ParsedURL) (q : String),
        scanFor gamesPat pu.pathname.data = none →
        spGet pu.searchParams "id" = some q → isDigitString q = true →
        extractIdsFromUrl (some pu) = some q) ∧
    (∀ (pu : ParsedURL) (ds rest : List Char),
        scanFor gamesPat pu.pathname.data = none →
        (∀ q, spGet pu.searchParams "id" = some q → isDigitString q = false) →
        pu.pathname.data = placesPat ++ (ds ++ rest) → ds ≠ [] →
        (∀ c ∈ ds, c.isDigit = true) → headNotDigit rest = true →
        extractIdsFromUrl (some pu) = some (String.mk ds)) := by
  refine ⟨?_, ?_, ?_⟩
  · intro pathname params ds rest hpath hne hds hrest
    have hscan : scanFor gamesPat pathname.data = some ds := by
      rw [hpath]
      exact scanFor_prefix gamesPat ds rest (by decide) hne hds hrest
    simp only [extractIdsFromUrl, hscan]
  · intro pu q hscan hq hdig
    have hq0 : q ≠ "" := by
      intro hempty
      rw [hempty] at hdig
      simp [isDigitString] at hdig
    simp only [extractIdsFromUrl, hscan, hq, bne_iff_ne, ne_eq, hq0, not_false_eq_true,
      hdig, Bool.and_self, if_true]
    simp [hq0, hdig]
  · intro pu ds rest hscan hqbad hpath hne hds hrest
    have hplaces : placesLookup pu = some (String.mk ds) := by
      unfold placesLookup
      rw [hpath, scanFor_prefix placesPat ds rest (by decide) hne hds hrest]
    cases hq : spGet pu.searchParams "id" with
    | none => simp only [extractIdsFromUrl, hscan, hq, hplaces]
    | some q =>
      have hfalse : isDigitString q = false := hqbad q hq
      simp only [extractIdsFromUrl, hscan, hq, hfalse, Bool.and_false, hplaces]
      simp [hplaces]

/-- Witness for C4: all three branches at concrete URLs.  The first shows a
games path beating a conflicting `id` parameter; the second an `id`
parameter on a non-matching path; the third a places path with a
non-numeric `id` parameter present. -/
theorem extractIdsFromUrl_patterns_witness :
    extractIdsFromUrl (some ⟨"/games/123/Adventure", [("id", "999")]⟩)
      = some (String.mk "123".data) ∧
    extractIdsFromUrl (some ⟨"/users/7", [("id", "999")]⟩) = some "999" ∧
    extractIdsFromUrl (some ⟨"/places/55", [("id", "9x9")]⟩)
      = some (String.mk "55".data) :=
  ⟨extractIdsFromUrl_patterns.1 "/games/123/Adventure" [("id", "999")]
     "123".data "/Adventure".data (by decide) (by decide) (by decide) (by decide),
   extractIdsFromUrl_patterns.2.1 ⟨"/users/7", [("id", "999")]⟩ "999"
     (by decide) (by decide) (by decide),
   extractIdsFromUrl_patterns.2.2 ⟨"/places/55", [("id", "9x9")]⟩
     "55".data "".data (by decide)
     (by intro q hq; injection hq with h2; subst h2; decide)
     (by decide) (by decide) (by decide) (by decide)⟩

/-- C5: the resolver never raises: a malformed URL (the parser threw, input
`none`) yields the empty result, and in general the result is either empty or
a nonempty digit string — the error branch only ever produces the empty
record. -/
theorem extractIdsFromUrl_malformed_safe :
    extractIdsFromUrl none = none ∧
    ∀ (u : Option ParsedURL) (s : String), extractIdsFromUrl u = some s →
      s ≠ "" ∧ s.data.all Char.isDigit = true := by
  refine ⟨rfl, ?_⟩
  intro u s h
  cases u with
  | none => exact absurd h (by simp [extractIdsFromUrl])
  | some pu =>
    simp only [extractIdsFromUrl] at h
    cases hscan : scanFor gamesPat pu.pathname.data with
    | some ds =>
      rw [hscan] at h
      injection h with h2
      subst h2
      obtain ⟨hne, hds⟩ := scanFor_sound hscan
      exact stringMk_digits hne hds
    | none =>
      simp only [hscan] at h
      cases hq : spGet pu.searchParams "id" with
      | some q =>
        simp only [hq] at h
        by_cases hc : (q != "" && isDigitString q) = true
        · rw [if_pos hc] at h
          injection h with h2
          subst h2
          have : isDigitString q = true := (Bool.and_eq_true _ _ |>.mp hc).2
          simp only [isDigitString, Bool.and_eq_true, bne_iff_ne, ne_eq] at this
          exact ⟨this.1, this.2⟩
        · rw [if_neg hc] at h
          exact placesLookup_sound h
      | none =>
        simp only [hq] at h
        exact placesLookup_sound h

/-- Witness for C5 on the universally quantified part: the concrete result
`"5"` for a games URL is a nonempty digit string. -/
theorem extractIdsFromUrl_malformed_safe_witness :
    ("5" : String) ≠ "" ∧ ("5" : String).data.all Char.isDigit = true :=
  extractIdsFromUrl_malformed_safe.2 (some ⟨"/games/5", []⟩) "5" rfl

/-- C6: for every document (list of inline scripts, in document order) and
every behaviour of the platform regex engine and of `JSON.parse`, the
extractor returns the first script block whose attempt (regex strategy, then
the ld+json strategy) successfully parses, and returns null exactly when no
block parses.  Parse errors are values (`none`) here, never propagated: the
function is total. -/
theorem parseEmbeddedJson_first_success (rmatch : String → Option String)
    (jparse : String → Option JSVal) (scripts : List (Option String)) :
    parseEmbeddedJson rmatch jparse scripts
      = scripts.findSome? (scriptAttempt rmatch jparse) ∧
    (parseEmbeddedJson rmatch jparse scripts = none ↔
      ∀ s ∈ scripts, scriptAttempt rmatch jparse s = none) := by
  have key : parseEmbeddedJson rmatch jparse scripts
      = scripts.findSome? (scriptAttempt rmatch jparse) := by
    induction scripts with
    | nil => rfl
    | cons s rest ih =>
      simp only [parseEmbeddedJson, List.findSome?_cons]
      cases h : scriptAttempt rmatch jparse s <;> simp [h, ih]
  refine ⟨key, ?_⟩
  rw [key]
  exact List.findSome?_eq_none_iff

/-- Witness for C6 at a concrete document: a first script that fails to parse
is passed over and the second script's object is returned. -/
theorem parseEmbeddedJson_first_success_witness :
    parseEmbeddedJson cexRmatch cexJparse [some "var x = 1;", some cexScript]
      = ([some "var x = 1;", some cexScript]).findSome? (scriptAttempt cexRmatch cexJparse) :=
  (parseEmbeddedJson_first_success cexRmatch cexJparse
    [some "var x = 1;", some cexScript]).1

/-- C8 counterexample: a failing dataset append is NOT swallowed.  The
`dataset.pushData` call sits outside the try/catch (only the KV write is
guarded), so its rejection propagates and fails the processing of that URL. -/
theorem sink_dataset_failure_not_swallowed :
    sinkPhase (Except.error "disk full") (Except.ok ()) = Except.error "disk full" ∧
    (sinkPhase (Except.error "disk full") (Except.ok ())).isOk = false :=
  ⟨rfl, rfl⟩

/-- C8 amended: once the dataset append has succeeded, a failure of the keyed
raw-blob (KV) store write is logged as a warning and swallowed — the
processing of the URL still succeeds, whatever the KV outcome. -/
theorem sink_kv_failure_swallowed (kvOutcome : Except String Unit) :
    (sinkPhase (Except.ok ()) kvOutcome).isOk = true ∧
    (∀ e, kvOutcome = Except.error e →
      sinkPhase (Except.ok ()) kvOutcome
        = Except.ok (some ("Failed to save raw JSON to KV: " ++ e))) := by
  cases kvOutcome with
  | ok u => exact ⟨rfl, fun e h => absurd h (by simp)⟩
  | error e =>
    refine ⟨rfl, ?_⟩
    intro e' h
    injection h with h2
    subst h2
    rfl

/-- Witness for C8's amended theorem: a KV write failure is swallowed and its
warning logged. -/
theorem sink_kv_failure_swallowed_witness :
    (sinkPhase (Except.ok ()) (Except.error "boom")).isOk = true ∧
    sinkPhase (Except.ok ()) (Except.error "boom")
      = Except.ok (some ("Failed to save raw JSON to KV: " ++ "boom")) :=
  ⟨(sink_kv_failure_swallowed (Except.error "boom")).1,
   (sink_kv_failure_swallowed (Except.error "boom")).2 "boom" rfl⟩

/-- C10 counterexample: with the API returning a non-null object whose
`visits` is 10, a DOM-scraped visits of `"5"`, and an embedded `pageJson`
carrying `visits: 42`, the `pageData` fragment handed to the normalizer has
`visits` 42, not `apiData.visits`: the `...pageJson` spread comes after the
`visits:` entry in the object literal and overrides it. -/
theorem cheerio_pageJson_overrides_visits :
    getVal (cheerioPageData "n" (JSVal.vstr "5") (JSVal.vobj [("visits", JSVal.vnum 10)])
        (JSVal.vobj [("visits", JSVal.vnum 42)])) "visits" = JSVal.vnum 42 ∧
    getVal (JSVal.vobj [("visits", JSVal.vnum 10)]) "visits" = JSVal.vnum 10 ∧
    truthy (JSVal.vobj [("visits", JSVal.vnum 10)]) = true ∧
    JSVal.vnum 42 ≠ JSVal.vnum 10 :=
  ⟨rfl, rfl, rfl, by intro h; injection h with h2; omega⟩

/-- C10 amended: when the API returned a truthy (non-null) value and the
embedded `pageJson` does not itself carry a `visits` key, the `pageData`
fragment passed to the normalizer has `visits` equal to `apiData.visits`
rather than the DOM-scraped value; and the record's `raw_page` stores exactly
this modified fragment, not an unmodified page-sourced one. -/
theorem cheerio_pageData_visits_from_api (name : String)
    (domVisits apiData pageJson placeId : JSVal) (url now : String)
    (hapi : truthy apiData = true)
    (hnv : hasKey pageJson "visits" = false) :
    getVal (cheerioPageData name domVisits apiData pageJson) "visits"
      = getVal apiData "visits" ∧
    getKey (normalizeRecord apiData (cheerioPageData name domVisits apiData pageJson)
        url placeId now) "raw_page"
      = some (cheerioPageData name domVisits apiData pageJson) := by
  constructor
  · unfold cheerioPageData
    cases pageJson with
    | vobj fs =>
      simp only [spreadInto, getVal]
      rw [getKey_foldl_setKey fs "visits" _ (getKey_none_forall ?keyabs)]
      · simp [getKey, hapi]
      case keyabs =>
        simp only [hasKey] at hnv
        exact Option.not_isSome_iff_eq_none.mp (by simp [hnv])
    | vnull => simp [spreadInto, getVal, getKey, hapi]
    | vbool b => simp [spreadInto, getVal, getKey, hapi]
    | vnum n => simp [spreadInto, getVal, getKey, hapi]
    | vstr s => simp [spreadInto, getVal, getKey, hapi]
  · rfl

/-- Witness for C10's amended theorem: API visits 10, a DOM value `"5"`, and
an embedded object with no `visits` key — the fragment's visits is the
API's. -/
theorem cheerio_pageData_visits_from_api_witness :
    getVal (cheerioPageData "n" (JSVal.vstr "5") (JSVal.vobj [("visits", JSVal.vnum 10)])
        (JSVal.vobj [("experienceId", JSVal.vnum 3)])) "visits"
      = getVal (JSVal.vobj [("visits", JSVal.vnum 10)]) "visits" :=
  (cheerio_pageData_visits_from_api "n" (JSVal.vstr "5")
    (JSVal.vobj [("visits", JSVal.vnum 10)]) (JSVal.vobj [("experienceId", JSVal.vnum 3)])
    JSVal.vnull "u" "t" rfl rfl).1

/-- The static handler hands the API visits value to the page fragment; once
merged behind `apiData.visits` in the normalizer, that echo is invisible:
the merged visits agrees with a fragment carrying no visits at all. -/
theorem visits_collapse (A : JSVal) :
    jsOr (jsOr (getVal A "visits") (if truthy A then getVal A "visits" else JSVal.vnull))
        JSVal.vnull
      = jsOr (jsOr (getVal A "visits") JSVal.vnull) JSVal.vnull := by
  cases hA : truthy A <;> cases hv : truthy (getVal A "visits") <;>
    simp [jsOr, hA, hv]

/-- Two page fragments that agree on every field the normalizer reads (with
the visits merges agreeing) give records that agree on all twelve canonical
fields (the raw payload fields may differ). -/
theorem normalizeRecord_congr_nonraw (A P1 P2 pid : JSVal) (u now : String)
    (hexp : getVal P1 "experienceId" = getVal P2 "experienceId")
    (hplc : getVal P1 "placeId" = getVal P2 "placeId")
    (hnam : getVal P1 "name" = getVal P2 "name")
    (hcre : getVal P1 "creator" = getVal P2 "creator")
    (hvis : jsOr (jsOr (getVal A "visits") (getVal P1 "visits")) JSVal.vnull
      = jsOr (jsOr (getVal A "visits") (getVal P2 "visits")) JSVal.vnull)
    (hfav : getVal P1 "favorites" = getVal P2 "favorites")
    (hply : getVal P1 "playing" = getVal P2 "playing")
    (hmax : getVal P1 "maxPlayers" = getVal P2 "maxPlayers")
    (hprc : getVal P1 "price" = getVal P2 "price")
    (hgen : getVal P1 "genre" = getVal P2 "genre") :
    ∀ k ∈ canonicalFields,
      getKey (normalizeRecord A P1 u pid now) k
        = getKey (normalizeRecord A P2 u pid now) k := by
  intro k hk
  fin_cases hk <;>
    simp [normalizeRecord, getKey, hexp, hplc, hnam, hcre, hvis, hfav, hply, hmax,
      hprc, hgen]

/-- C7 counterexample: identical page content and identical API behaviour, but
the static (cheerio) mode and the rendered (playwright) mode produce records
whose `place_id` differ: the page embeds a JSON object carrying
`placeId: "777"`, which only the static mode extracts — the rendered handler
never invokes the Embedded-Data Extractor. -/
theorem handlers_diverge_on_embedded_json :
    getKey (cheerioRecord cexRmatch cexJparse (fun _ => JSVal.vnull) (fun _ => JSVal.vnull)
        false false (some ⟨"/nope", []⟩) "u" cexPage "t") "place_id"
      = some (JSVal.vstr "777") ∧
    getKey (playwrightRecord (fun _ => JSVal.vnull) false (some ⟨"/nope", []⟩) "u" cexPage "t")
        "place_id" = some JSVal.vnull ∧
    (some (JSVal.vstr "777") : Option JSVal) ≠ some JSVal.vnull :=
  ⟨rfl, rfl, fun h => JSVal.noConfusion (Option.some.inj h)⟩

/-- C7 amended: the two modes do share the Resolver → API Client → Normalizer
chain.  Whenever the Embedded-Data Extractor finds nothing (so the static
mode's extra use of it and its universe-id API fallback are inert), the DOM
heuristics find nothing, and the two modes' name reads agree, the records
agree on all twelve canonical fields for every URL and API behaviour. -/
theorem handlers_shared_pipeline
    (rmatch : String → Option String) (jparse : String → Option JSVal)
    (apiByPlace : String → JSVal) (apiByUniverse : JSVal → JSVal)
    (useApi checkPlaceDetails : Bool) (parsed : Option ParsedURL)
    (url now : String) (page : PageContent)
    (hpj : parseEmbeddedJson rmatch jparse page.scripts = none)
    (hstat : page.statText = "")
    (hplay : page.playingText = "")
    (hname : strOr (jsTrim page.h1Text) (strOr (page.ogTitle.getD "") "")
      = strOr page.title (strOr page.h1Text "")) :
    ∀ k ∈ canonicalFields,
      getKey (cheerioRecord rmatch jparse apiByPlace apiByUniverse useApi checkPlaceDetails
          parsed url page now) k
        = getKey (playwrightRecord apiByPlace useApi parsed url page now) k := by
  intro k hk
  have e1 : cheerioRecord rmatch jparse apiByPlace apiByUniverse useApi checkPlaceDetails
      parsed url page now
      = normalizeRecord (apiSel apiByPlace useApi (extractIdsFromUrl parsed))
          (JSVal.vobj
            [("name", jsOr (jsOr (JSVal.vstr (strOr (jsTrim page.h1Text)
                (strOr (page.ogTitle.getD "") ""))) JSVal.vnull) (JSVal.vstr "")),
             ("visits", if truthy (apiSel apiByPlace useApi (extractIdsFromUrl parsed))
                then getVal (apiSel apiByPlace useApi (extractIdsFromUrl parsed)) "visits"
                else JSVal.vnull)])
          url (placeIdOrNull (extractIdsFromUrl parsed)) now := by
    simp [cheerioRecord, hpj, hstat, cheerioPageData, spreadInto, getVal_vnull,
      truthy_vnull]
  have e2 : playwrightRecord apiByPlace useApi parsed url page now
      = normalizeRecord (apiSel apiByPlace useApi (extractIdsFromUrl parsed))
          (JSVal.vobj [("name", JSVal.vstr (strOr page.title (strOr page.h1Text ""))),
             ("playing", JSVal.vnull)])
          url (placeIdOrNull (extractIdsFromUrl parsed)) now := by
    simp [playwrightRecord, hplay]
  rw [e1, e2]
  refine normalizeRecord_congr_nonraw
    (apiSel apiByPlace useApi (extractIdsFromUrl parsed))
    (JSVal.vobj
      [("name", jsOr (jsOr (JSVal.vstr (strOr (jsTrim page.h1Text)
          (strOr (page.ogTitle.getD "") ""))) JSVal.vnull) (JSVal.vstr "")),
       ("visits", if truthy (apiSel apiByPlace useApi (extractIdsFromUrl parsed))
          then getVal (apiSel apiByPlace useApi (extractIdsFromUrl parsed)) "visits"
          else JSVal.vnull)])
    (JSVal.vobj [("name", JSVal.vstr (strOr page.title (strOr page.h1Text ""))),
       ("playing", JSVal.vnull)])
    (placeIdOrNull (extractIdsFromUrl parsed)) url now
    rfl rfl ?_ rfl (visits_collapse _) rfl rfl rfl rfl rfl k hk
  simp [getVal, getKey, jsOr_str_chain, hname]

/-- Witness for C7's amended theorem: an empty page, no embedded data, API
disabled — both modes agree on the `visits` field. -/
theorem handlers_shared_pipeline_witness :
    getKey (cheerioRecord (fun _ => none) (fun _ => none) (fun _ => JSVal.vnull)
        (fun _ => JSVal.vnull) true true none "u"
        ⟨[], "", none, "", "", ""⟩ "t") "visits"
      = getKey (playwrightRecord (fun _ => JSVal.vnull) true none "u"
          ⟨[], "", none, "", "", ""⟩ "t") "visits" :=
  handlers_shared_pipeline (fun _ => none) (fun _ => none) (fun _ => JSVal.vnull)
    (fun _ => JSVal.vnull) true true none "u" "t" ⟨[], "", none, "", "", ""⟩
    rfl rfl rfl rfl "visits" (by decide)

end Roblox
